import Mathlib

/-!
Verification of the ComES backend's quiz-attempt scoring engine
(`src/controllers/quiz.controller.ts`) and competition-team membership
state machine (`src/controllers/competitionTeam.controller.ts`), over a
shallow embedding of the relevant controllers and models.

Conventions of the embedding:
* Mongoose ObjectIds become `String` (the controllers compare them with
  `toString()` equality).
* JavaScript numbers become `ℚ`; `marks` and `timeLimitSeconds` are `ℕ`
  because the validation layer (`validation.middleware.ts`) enforces
  `isInt` with min 1 resp. min 5 / max 300 on every write path.
* `Math.round` (round half toward positive infinity) becomes
  `Int.floor (x + 1/2)`.
* `Date` timestamps become `ℕ`.
* Mongoose persistence (`Model.create`, `doc.save`) becomes explicit:
  fallible controller bodies return `Except`, and the `QuizAttempt.create`
  call is modelled by appending to an explicit store, so "no record is
  persisted" is visible as an `.error` result carrying no store.
* Fields of the documents that no claim touches (slugs, createdAt /
  updatedAt timestamps, image URLs) are elided.
-/

namespace ComES

/-- JavaScript `Math.round`: rounds half toward positive infinity
(`Math.round(-0.5) = 0`, `Math.round(2.5) = 3`). -/
def jsRound (x : ℚ) : ℤ := Int.floor (x + 1/2)

/-- `Math.round(x * 100) / 100`: round to two decimal places, as done for
`marksAwarded` and `totalMarks` in `submitQuizAttempt`. -/
def round2 (x : ℚ) : ℚ := (jsRound (x * 100) : ℚ) / 100

/-! ## Quiz data model (`quiz.model.ts`) -/

/-- An answer of a question: `IAnswer` in `quiz.model.ts`. -/
structure Answer where
  text : String
  isCorrect : Bool
deriving Repr, DecidableEq

/-- A question of a quiz: `IQuestion` in `quiz.model.ts`.  `id` is the
string form of the subdocument `_id`.  `timeLimitSeconds` and `marks` are
integers by the `isInt` validators (5–300 resp. ≥ 1). -/
structure Question where
  id : String
  questionText : String
  answers : List Answer
  timeLimitSeconds : ℕ
  marks : ℕ
deriving Repr, DecidableEq

/-- A quiz document: `IQuiz` in `quiz.model.ts` (slug and timestamps
elided). -/
structure Quiz where
  id : String
  title : String
  description : String
  questions : List Question
  isVisible : Bool
deriving Repr, DecidableEq

/-- A submitted response from the request body of
`POST /api/v1/quizzes/:id/attempt`: `{questionId, selectedAnswerIndex,
responseTimeSeconds}`.  `selectedAnswerIndex` is a non-negative integer
(`isInt min 0 max 3` in validation) and `responseTimeSeconds` a
non-negative float. -/
structure ResponseInput where
  questionId : String
  selectedAnswerIndex : ℕ
  responseTimeSeconds : ℚ
deriving Repr, DecidableEq

/-- A scored response as embedded in a `QuizAttempt` document. -/
structure ScoredResponse where
  questionId : String
  selectedAnswerIndex : ℕ
  responseTimeSeconds : ℚ
  isCorrect : Bool
  marksAwarded : ℚ
deriving Repr, DecidableEq

/-- A `QuizAttempt` document as created by `submitQuizAttempt`. -/
structure QuizAttempt where
  quizId : String
  participantName : String
  responses : List ScoredResponse
  totalMarks : ℚ
  maxMarks : ℚ
  percentage : ℚ
  completedAt : ℕ
deriving Repr, DecidableEq

/-- The request body of `submitQuizAttempt`. -/
structure SubmitRequest where
  participantName : String
  responses : List ResponseInput
deriving Repr, DecidableEq

/-- The errors thrown by `submitQuizAttempt` (as `AppError`s). -/
inductive SubmitError where
  /-- `NotFoundError('Quiz')`, 404. -/
  | quizNotFound
  /-- `'This quiz is not available'`, 403. -/
  | quizNotAvailable
  /-- `'Question <id> not found in this quiz'`, 400. -/
  | questionNotFound (questionId : String)
deriving Repr, DecidableEq

/-! ## Quiz scoring (`quiz.controller.ts`, `submitQuizAttempt`) -/

/-- The id → question map built in `submitQuizAttempt`
(`new Map(quiz.questions.map((q) => [q._id.toString(), q]))`); question
`_id`s are distinct, so lookup is first match. -/
def findQuestion (quiz : Quiz) (questionId : String) : Option Question :=
  quiz.questions.find? (fun q => q.id = questionId)

/-- Score one response against its question: the body of the
`responses.map` callback in `submitQuizAttempt` (the successful branch).
`question.answers[selectedIndex]?.isCorrect || false` is `Option.getD`
of the index lookup; a correct answer gets
`max(marks * 0.1, marks * max(0, (timeLimit - responseTime)/timeLimit))`
rounded to two decimals, an incorrect one gets 0. -/
def scoreResponse (question : Question) (resp : ResponseInput) : ScoredResponse :=
  let selectedIndex := resp.selectedAnswerIndex
  let responseTime := resp.responseTimeSeconds
  let isCorrect := ((question.answers[selectedIndex]?).map Answer.isCorrect).getD false
  let marksAwarded : ℚ :=
    if isCorrect then
      let timeLimit : ℚ := (question.timeLimitSeconds : ℚ)
      let timeFraction := max 0 ((timeLimit - responseTime) / timeLimit)
      round2 (max ((question.marks : ℚ) * (1/10)) ((question.marks : ℚ) * timeFraction))
    else 0
  { questionId := resp.questionId
    selectedAnswerIndex := selectedIndex
    responseTimeSeconds := responseTime
    isCorrect := isCorrect
    marksAwarded := marksAwarded }

/-- Score all responses in order; the JS `map` throws at the first
response whose `questionId` is not in the question map, so the whole
computation is fallible and errors at the first unknown id. -/
def scoreResponses (quiz : Quiz) : List ResponseInput → Except SubmitError (List ScoredResponse)
  | [] => .ok []
  | resp :: rest =>
    match findQuestion quiz resp.questionId with
    | none => .error (.questionNotFound resp.questionId)
    | some question =>
      match scoreResponses quiz rest with
      | .error e => .error e
      | .ok scored => .ok (scoreResponse question resp :: scored)

/-- The aggregate part of `submitQuizAttempt`: the `QuizAttempt` record
handed to `QuizAttempt.create` once every response has been scored.
`totalMarks` is the raw sum rounded to two decimals; `maxMarks` sums the
marks of all questions of the quiz; `percentage` is
`maxMarks > 0 ? Math.round((totalMarks / maxMarks) * 10000) / 100 : 0`
computed from the raw (pre-rounding) sum, as in the source. -/
def mkAttempt (quiz : Quiz) (req : SubmitRequest) (now : ℕ)
    (scoredResponses : List ScoredResponse) : QuizAttempt :=
  let totalMarks : ℚ := (scoredResponses.map ScoredResponse.marksAwarded).sum
  let maxMarks : ℚ := ((quiz.questions.map Question.marks).sum : ℕ)
  let percentage : ℚ :=
    if 0 < maxMarks then (jsRound ((totalMarks / maxMarks) * 10000) : ℚ) / 100 else 0
  { quizId := quiz.id
    participantName := req.participantName
    responses := scoredResponses
    totalMarks := round2 totalMarks
    maxMarks := maxMarks
    percentage := percentage
    completedAt := now }

/-- The body of `submitQuizAttempt` after the quiz has been fetched:
visibility gate, per-response scoring, then the aggregate record. -/
def submitQuizAttempt (quiz : Quiz) (req : SubmitRequest) (now : ℕ) :
    Except SubmitError QuizAttempt :=
  if quiz.isVisible = false then .error .quizNotAvailable
  else
    match scoreResponses quiz req.responses with
    | .error e => .error e
    | .ok scoredResponses => .ok (mkAttempt quiz req now scoredResponses)

/-- `Quiz.findById` over a store of quiz documents. -/
def findQuizById (quizzes : List Quiz) (quizId : String) : Option Quiz :=
  quizzes.find? (fun q => q.id = quizId)

/-- The whole route `POST /api/v1/quizzes/:id/attempt` with persistence
made explicit: on success the created attempt is appended to the
`QuizAttempt` store, on any error no store is produced. -/
def submitQuizAttemptStore (quizzes : List Quiz) (quizId : String) (req : SubmitRequest)
    (now : ℕ) (attempts : List QuizAttempt) : Except SubmitError (List QuizAttempt) :=
  match findQuizById quizzes quizId with
  | none => .error .quizNotFound
  | some quiz =>
    match submitQuizAttempt quiz req now with
    | .error e => .error e
    | .ok attempt => .ok (attempts ++ [attempt])

/-! ## Public quiz views (`getAllQuizzes`, `getQuizById`) -/

/-- An answer as returned by the listing endpoint after
`.select('-questions.answers.isCorrect')`: only the text survives. -/
structure PublicAnswer where
  text : String
deriving Repr, DecidableEq

/-- A question as returned by the listing endpoint: everything except the
answers' `isCorrect` flags. -/
structure PublicQuestion where
  id : String
  questionText : String
  answers : List PublicAnswer
  timeLimitSeconds : ℕ
  marks : ℕ
deriving Repr, DecidableEq

/-- A quiz as returned by the listing endpoint. -/
structure PublicQuiz where
  id : String
  title : String
  description : String
  questions : List PublicQuestion
  isVisible : Bool
deriving Repr, DecidableEq

/-- The projection `select('-questions.answers.isCorrect')` on one
answer. -/
def stripAnswer (a : Answer) : PublicAnswer := { text := a.text }

/-- The projection `select('-questions.answers.isCorrect')` on one
question. -/
def stripQuestion (q : Question) : PublicQuestion :=
  { id := q.id
    questionText := q.questionText
    answers := q.answers.map stripAnswer
    timeLimitSeconds := q.timeLimitSeconds
    marks := q.marks }

/-- The projection `select('-questions.answers.isCorrect')` on one quiz
document, as applied by `getAllQuizzes` to every document it returns. -/
def stripQuiz (q : Quiz) : PublicQuiz :=
  { id := q.id
    title := q.title
    description := q.description
    questions := q.questions.map stripQuestion
    isVisible := q.isVisible }

/-- The `Quiz.find(filter)` stage of `getAllQuizzes`: the filter
restricts to `isVisible: true` unless `includeHidden=true`, and when a
`search` term is present adds
`$or: [{title: regex}, {description: regex}]` — a predicate reading
only the title and the description, modelled as such. -/
def listSelection (quizzes : List Quiz) (includeHidden : Bool)
    (search : Option (String → String → Bool)) : List Quiz :=
  match search with
  | none => if includeHidden then quizzes else quizzes.filter (fun q => q.isVisible)
  | some p =>
    (if includeHidden then quizzes else quizzes.filter (fun q => q.isVisible)).filter
      (fun q => p q.title q.description)

/-- `GET /api/v1/quizzes`, the full pipeline of `getAllQuizzes`:
`Quiz.find(filter).select('-questions.answers.isCorrect').skip(skip)
.limit(limit).sort(sort)`.  MongoDB executes the stages as: filter, then
the `sort` on the **stored, un-projected** documents, then the
`skip`/`limit` window, and only then the `select` projection on each
returned document.  The `sort` is user-controlled and unvalidated (any
field path from the query string, the default being `createdAt: -1`); it
is modelled as an arbitrary `sortStage` reordering the stored list, so
that orderings keyed on the stripped flags are expressible. -/
def getAllQuizzesView (quizzes : List Quiz) (includeHidden : Bool)
    (search : Option (String → String → Bool))
    (sortStage : List Quiz → List Quiz) (skip limit : ℕ) : List PublicQuiz :=
  (((sortStage (listSelection quizzes includeHidden search)).drop skip).take limit).map
    stripQuiz

/-- `GET /api/v1/quizzes/:id`: `Quiz.findById(req.params.id)` returned
as-is, with no projection applied. -/
def getQuizByIdView (quizzes : List Quiz) (quizId : String) : Except SubmitError Quiz :=
  match findQuizById quizzes quizId with
  | none => .error .quizNotFound
  | some quiz => .ok quiz

/-! ## Competition team data model (`competitionTeam.model.ts`,
`student.model.ts`) -/

/-- Team status: `'pending' | 'active' | 'disbanded'`. -/
inductive TeamStatus where
  | pending
  | active
  | disbanded
deriving Repr, DecidableEq

/-- Member status: `'pending' | 'approved' | 'rejected'`. -/
inductive MemberStatus where
  | pending
  | approved
  | rejected
deriving Repr, DecidableEq

/-- `ICompetitionTeamMember`. -/
structure TeamMember where
  studentId : String
  name : String
  email : String
  registrationNo : String
  status : MemberStatus
  joinedAt : Option ℕ
deriving Repr, DecidableEq

/-- `ICompetitionTeam` (timestamps elided). -/
structure Team where
  id : String
  name : String
  leaderId : String
  leaderName : String
  leaderEmail : String
  members : List TeamMember
  status : TeamStatus
deriving Repr, DecidableEq

/-- A student directory entry (`student.model.ts`, the fields consulted
by `createTeam`). -/
structure Student where
  id : String
  name : String
  email : String
  registrationNo : String
deriving Repr, DecidableEq

/-- The errors thrown by the competition-team controller (as
`AppError`s). -/
inductive TeamError where
  /-- `'Student not found'`, 404 (leader lookup). -/
  | studentNotFound
  /-- `'A team with this name already exists'`, 400. -/
  | duplicateName
  /-- `'Team not found'`, 404. -/
  | teamNotFound
  /-- `'Invalid status. Must be approved or rejected'`, 400. -/
  | invalidStatus
  /-- `'You are not invited to this team'`, 400. -/
  | notInvited
  /-- `'Team leader cannot leave. Disband the team instead.'`, 400. -/
  | leaderCannotLeave
  /-- `'Only the team leader can disband the team'`, 403. -/
  | notLeaderDisband
  /-- `'Only the team leader can remove members'`, 403. -/
  | notLeaderRemove
deriving Repr, DecidableEq

/-- `Student.findById` over the student directory. -/
def findStudentById (directory : List Student) (studentId : String) : Option Student :=
  directory.find? (fun s => s.id = studentId)

/-- `CompetitionTeam.findById` over a store of team documents. -/
def findTeamById (teams : List Team) (teamId : String) : Option Team :=
  teams.find? (fun t => t.id = teamId)

/-! ## Competition team operations (`competitionTeam.controller.ts`) -/

/-- Resolve one invitee id in `createTeam`: `Student.findById(memberId)`;
`null` (dropped) when the id does not resolve, otherwise a fresh member
entry with status `'pending'`. -/
def resolveInvitee (directory : List Student) (memberId : String) : Option TeamMember :=
  match findStudentById directory memberId with
  | none => none
  | some student =>
    some { studentId := student.id
           name := student.name
           email := student.email
           registrationNo := student.registrationNo
           status := .pending
           joinedAt := none }

/-- The team document handed to `CompetitionTeam.create` by `createTeam`:
leader identity denormalized onto the team, resolved members, and initial
status `'pending'` iff the resolved member list is nonempty. -/
def mkTeam (newId name leaderId : String) (leader : Student)
    (validMembers : List TeamMember) : Team :=
  { id := newId
    name := name
    leaderId := leaderId
    leaderName := leader.name
    leaderEmail := leader.email
    members := validMembers
    status := if validMembers.length > 0 then .pending else .active }

/-- `createTeam` (`POST /api/v1/competition-teams`): leader lookup,
duplicate-name check, invitee resolution with `null`s filtered out
(`members.filter((m) => m !== null)` after the lookups, i.e. `filterMap`),
then the created document.  `newId` stands for the `_id` the database
assigns. -/
def createTeam (directory : List Student) (teams : List Team) (newId name leaderId : String)
    (memberIds : List String) : Except TeamError Team :=
  match findStudentById directory leaderId with
  | none => .error .studentNotFound
  | some leader =>
    if teams.any (fun t => t.name = name) then .error .duplicateName
    else .ok (mkTeam newId name leaderId leader
      (memberIds.filterMap (resolveInvitee directory)))

/-- The in-place member update of `respondToInvitation`:
`findIndex` of the first entry with the given `studentId` followed by a
mutation of that entry, embedded as "update the first matching entry".
`joinedAt` is set to `now` only on approval. -/
def respondFirstMatch (studentId : String) (newStatus : MemberStatus) (now : ℕ) :
    List TeamMember → List TeamMember
  | [] => []
  | m :: rest =>
    if m.studentId = studentId then
      { m with status := newStatus
               joinedAt := if newStatus = .approved then some now else m.joinedAt } :: rest
    else m :: respondFirstMatch studentId newStatus now rest

/-- The mutation `respondToInvitation` performs on a found team whose
member list contains the responder: the member update followed by the
recompute `if (allResponded && allApproved) team.status = 'active'`
(no change of team status otherwise). -/
def respondUpdate (team : Team) (studentId : String) (newStatus : MemberStatus) (now : ℕ) :
    Team :=
  let updatedMembers := respondFirstMatch studentId newStatus now team.members
  let allResponded := updatedMembers.all (fun m => !(m.status = .pending))
  let allApproved := updatedMembers.all (fun m => m.status = .approved)
  { team with
    members := updatedMembers
    status := if allResponded && allApproved then .active else team.status }

/-- `respondToInvitation` (`POST /api/v1/competition-teams/:id/respond`):
status-string validation, team lookup, membership check
(`findIndex === -1`), then the member update and status recompute. -/
def respondToInvitation (teams : List Team) (teamId studentId decision : String) (now : ℕ) :
    Except TeamError Team :=
  if decision = "approved" ∨ decision = "rejected" then
    match findTeamById teams teamId with
    | none => .error .teamNotFound
    | some team =>
      if team.members.any (fun m => m.studentId = studentId) then
        .ok (respondUpdate team studentId
          (if decision = "approved" then .approved else .rejected) now)
      else .error .notInvited
  else .error .invalidStatus

/-- `leaveTeam` (`POST /api/v1/competition-teams/:id/leave`): leader
check, then `members.filter((m) => m.studentId !== studentId)`; nothing
else on the team is touched. -/
def leaveTeam (teams : List Team) (teamId studentId : String) : Except TeamError Team :=
  match findTeamById teams teamId with
  | none => .error .teamNotFound
  | some team =>
    if team.leaderId = studentId then .error .leaderCannotLeave
    else .ok { team with members := team.members.filter (fun m => !(m.studentId = studentId)) }

/-- `disbandTeam` (`DELETE /api/v1/competition-teams/:id`): requester
must be the leader; sets status to `'disbanded'` unconditionally. -/
def disbandTeam (teams : List Team) (teamId requesterId : String) : Except TeamError Team :=
  match findTeamById teams teamId with
  | none => .error .teamNotFound
  | some team =>
    if !(team.leaderId = requesterId) then .error .notLeaderDisband
    else .ok { team with status := .disbanded }

/-- `removeMember` (`DELETE /api/v1/competition-teams/:id/members/:memberId`):
requester must be the leader; `members.filter((m) => m.studentId !== memberId)`
with no check on the target and no status recompute. -/
def removeMember (teams : List Team) (teamId requesterId memberId : String) :
    Except TeamError Team :=
  match findTeamById teams teamId with
  | none => .error .teamNotFound
  | some team =>
    if !(team.leaderId = requesterId) then .error .notLeaderRemove
    else .ok { team with members := team.members.filter (fun m => !(m.studentId = memberId)) }

/-! ## Concrete documents used to instantiate the theorems -/

/-- The spec's worked example question: marks 10, time limit 20 s, the
correct answer at index 0. -/
def exQuestion : Question :=
  { id := "q1"
    questionText := "What is 2 + 2?"
    answers := [⟨"4", true⟩, ⟨"3", false⟩, ⟨"5", false⟩, ⟨"22", false⟩]
    timeLimitSeconds := 20
    marks := 10 }

/-- A second question (marks 5, time limit 30 s, correct answer at
index 2), left unanswered in the partial-submission witness. -/
def exQuestion2 : Question :=
  { id := "q2"
    questionText := "What is 3 * 3?"
    answers := [⟨"6", false⟩, ⟨"33", false⟩, ⟨"9", true⟩, ⟨"8", false⟩]
    timeLimitSeconds := 30
    marks := 5 }

/-- A visible two-question quiz. -/
def exQuiz : Quiz :=
  { id := "z1"
    title := "Arithmetic"
    description := "basics"
    questions := [exQuestion, exQuestion2]
    isVisible := true }

/-- The same quiz hidden (`isVisible: false`). -/
def exHiddenQuiz : Quiz :=
  { id := "z2"
    title := "Arithmetic"
    description := "basics"
    questions := [exQuestion, exQuestion2]
    isVisible := false }

/-- `exQuiz` with the correct answer of the first question moved from
index 0 to index 1: differs from `exQuiz` only in `isCorrect` flags. -/
def exQuizFlipped : Quiz :=
  { id := "z1"
    title := "Arithmetic"
    description := "basics"
    questions :=
      [{ id := "q1"
         questionText := "What is 2 + 2?"
         answers := [⟨"4", false⟩, ⟨"3", true⟩, ⟨"5", false⟩, ⟨"22", false⟩]
         timeLimitSeconds := 20
         marks := 10 },
       exQuestion2]
    isVisible := true }

/-- A question all four of whose answers are flagged correct (the model
only requires at least one correct answer). -/
def exQuestionAllCorrect : Question :=
  { id := "q9"
    questionText := "Pick any option"
    answers := [⟨"w", true⟩, ⟨"x", true⟩, ⟨"y", true⟩, ⟨"z", true⟩]
    timeLimitSeconds := 20
    marks := 10 }

/-- The same question with only the first answer flagged correct:
differs from `exQuestionAllCorrect` only in `isCorrect` flags. -/
def exQuestionOneCorrect : Question :=
  { id := "q9"
    questionText := "Pick any option"
    answers := [⟨"w", true⟩, ⟨"x", false⟩, ⟨"y", false⟩, ⟨"z", false⟩]
    timeLimitSeconds := 20
    marks := 10 }

/-- A visible one-question quiz whose flags are all true. -/
def exQuizAllCorrect : Quiz :=
  { id := "z1"
    title := "Arithmetic"
    description := "basics"
    questions := [exQuestionAllCorrect]
    isVisible := true }

/-- `exQuizAllCorrect` with only one correct answer: the two quizzes
differ only in `isCorrect` flags. -/
def exQuizOneCorrect : Quiz :=
  { id := "z1"
    title := "Arithmetic"
    description := "basics"
    questions := [exQuestionOneCorrect]
    isVisible := true }

/-- A second visible quiz (id `"z3"`) whose flags are not all true. -/
def exQuizB : Quiz :=
  { id := "z3"
    title := "Algebra"
    description := "more"
    questions := [exQuestion2]
    isVisible := true }

/-- The ascending MongoDB sort key of a quiz document for the multikey
path `questions.answers.isCorrect`: arrays compare by their minimal
element in ascending sorts, and the minimum of the boolean flags is
`true` exactly when every flag is `true`. -/
def flagKey (q : Quiz) : Bool :=
  q.questions.all (fun qq => qq.answers.all (fun a => a.isCorrect))

/-- A `?sort=questions.answers.isCorrect` stage: the stored documents
ordered by `flagKey` ascending (key `false` first), stably. -/
def flagSort (l : List Quiz) : List Quiz :=
  l.filter (fun q => !(flagKey q)) ++ l.filter (fun q => flagKey q)

/-- A leader in the student directory. -/
def exLeader : Student :=
  { id := "ldr"
    name := "Lena Leader"
    email := "lena@example.com"
    registrationNo := "EG1" }

/-- An invitable student in the directory. -/
def exStudent : Student :=
  { id := "stu"
    name := "Sam Student"
    email := "sam@example.com"
    registrationNo := "EG2" }

/-- The student directory used by the concrete team scenarios. -/
def exDirectory : List Student := [exLeader, exStudent]

/-- `exStudent` as a pending member entry of a team. -/
def exPendingMember : TeamMember :=
  { studentId := "stu"
    name := "Sam Student"
    email := "sam@example.com"
    registrationNo := "EG2"
    status := .pending
    joinedAt := none }

/-- A pending team led by `exLeader` with `exStudent` invited. -/
def exTeamPending : Team :=
  { id := "T"
    name := "Alpha"
    leaderId := "ldr"
    leaderName := "Lena Leader"
    leaderEmail := "lena@example.com"
    members := [exPendingMember]
    status := .pending }

/-- `exTeamPending` after the leader disbanded it: status `'disbanded'`,
the invitation still pending. -/
def exTeamDisbanded : Team :=
  { id := "T"
    name := "Alpha"
    leaderId := "ldr"
    leaderName := "Lena Leader"
    leaderEmail := "lena@example.com"
    members := [exPendingMember]
    status := .disbanded }

/-! ## Rounding lemmas -/

lemma jsRound_intCast (k : ℤ) : jsRound ((k : ℚ)) = k := by
  rw [jsRound, Int.floor_int_add]
  norm_num

/-- A rational with at most two decimal places is fixed by `round2`. -/
lemma round2_eq_self (x : ℚ) (k : ℤ) (h : x * 100 = (k : ℚ)) : round2 x = x := by
  rw [round2, h, jsRound_intCast, div_eq_iff (by norm_num : (100 : ℚ) ≠ 0)]
  exact h.symm

lemma round2_natCast (m : ℕ) : round2 ((m : ℚ)) = (m : ℚ) :=
  round2_eq_self _ (100 * m) (by push_cast; ring)

lemma round2_natCast_div_ten (m : ℕ) : round2 ((m : ℚ) / 10) = (m : ℚ) / 10 :=
  round2_eq_self _ (10 * m) (by push_cast; ring)

/-! ## C1: per-response scoring -/

/-- **C1**: For every question with marks `m` and time limit `t` and
every submitted response to it: if the selected answer is correct,
`marksAwarded = max(m * 0.1, m * max(0, (t - responseTime)/t))` rounded
to two decimal places, so a correct response at time 0 scores exactly
`m`, and a correct response at or beyond the time limit scores exactly
`0.1 * m` (never 0, never negative); if the selected answer is incorrect,
or `selectedAnswerIndex` is out of bounds of the answer list, `isCorrect`
is false and `marksAwarded = 0`. -/
theorem scoreResponse_spec (q : Question) (resp : ResponseInput)
    (hm : 1 ≤ q.marks) (ht : 1 ≤ q.timeLimitSeconds) :
    (∀ a, q.answers[resp.selectedAnswerIndex]? = some a → a.isCorrect = true →
      (scoreResponse q resp).isCorrect = true ∧
      (scoreResponse q resp).marksAwarded =
        round2 (max ((q.marks : ℚ) * (1/10))
          ((q.marks : ℚ) *
            max 0 (((q.timeLimitSeconds : ℚ) - resp.responseTimeSeconds) /
              (q.timeLimitSeconds : ℚ)))) ∧
      (resp.responseTimeSeconds = 0 → (scoreResponse q resp).marksAwarded = (q.marks : ℚ)) ∧
      ((q.timeLimitSeconds : ℚ) ≤ resp.responseTimeSeconds →
        (scoreResponse q resp).marksAwarded = (q.marks : ℚ) * (1/10) ∧
        0 < (scoreResponse q resp).marksAwarded)) ∧
    (∀ a, q.answers[resp.selectedAnswerIndex]? = some a → a.isCorrect = false →
      (scoreResponse q resp).isCorrect = false ∧ (scoreResponse q resp).marksAwarded = 0) ∧
    (q.answers[resp.selectedAnswerIndex]? = none →
      (scoreResponse q resp).isCorrect = false ∧ (scoreResponse q resp).marksAwarded = 0) := by
  have ht0 : (0 : ℚ) < (q.timeLimitSeconds : ℚ) := by
    have : 0 < q.timeLimitSeconds := lt_of_lt_of_le Nat.zero_lt_one ht
    exact_mod_cast this
  have hm1 : (1 : ℚ) ≤ (q.marks : ℚ) := by exact_mod_cast hm
  have hm0 : (0 : ℚ) ≤ (q.marks : ℚ) := le_trans zero_le_one hm1
  refine ⟨?_, ?_, ?_⟩
  · intro a ha hcorr
    have hform : (scoreResponse q resp).marksAwarded =
        round2 (max ((q.marks : ℚ) * (1/10))
          ((q.marks : ℚ) *
            max 0 (((q.timeLimitSeconds : ℚ) - resp.responseTimeSeconds) /
              (q.timeLimitSeconds : ℚ)))) := by
      simp [scoreResponse, ha, hcorr]
    refine ⟨by simp [scoreResponse, ha, hcorr], hform, ?_, ?_⟩
    · intro h0
      rw [hform, h0]
      have hfrac : ((q.timeLimitSeconds : ℚ) - 0) / (q.timeLimitSeconds : ℚ) = 1 := by
        rw [sub_zero, div_self ht0.ne']
      rw [hfrac]
      have hmax1 : max (0 : ℚ) 1 = 1 := max_eq_right zero_le_one
      rw [hmax1, mul_one]
      have hle : (q.marks : ℚ) * (1/10) ≤ (q.marks : ℚ) := by nlinarith
      rw [max_eq_right hle, round2_natCast]
    · intro hlate
      have hfrac : ((q.timeLimitSeconds : ℚ) - resp.responseTimeSeconds) /
          (q.timeLimitSeconds : ℚ) ≤ 0 :=
        div_nonpos_of_nonpos_of_nonneg (sub_nonpos.2 hlate) ht0.le
      have hmax0 : max (0 : ℚ)
          (((q.timeLimitSeconds : ℚ) - resp.responseTimeSeconds) / (q.timeLimitSeconds : ℚ)) = 0 :=
        max_eq_left hfrac
      have hten : (q.marks : ℚ) * (1/10) = (q.marks : ℚ) / 10 := by ring
      have hmarks : (scoreResponse q resp).marksAwarded = (q.marks : ℚ) * (1/10) := by
        rw [hform, hmax0, mul_zero, max_eq_left (by positivity), hten, round2_natCast_div_ten]
      refine ⟨hmarks, ?_⟩
      rw [hmarks]
      nlinarith
  · intro a ha hcorr
    constructor
    · simp [scoreResponse, ha, hcorr]
    · simp [scoreResponse, ha, hcorr]
  · intro ha
    constructor
    · simp [scoreResponse, ha]
    · simp [scoreResponse, ha]

/-- Witness for C1 at the spec's worked example: the correct answer at
time 0 scores the full 10 marks, and at 25 s (past the 20 s limit) scores
the 10% floor of 1 mark. -/
theorem scoreResponse_spec_witness :
    (scoreResponse exQuestion ⟨"q1", 0, 0⟩).marksAwarded = 10 ∧
    (scoreResponse exQuestion ⟨"q1", 0, 25⟩).marksAwarded = 1 := by
  constructor
  · have h := (scoreResponse_spec exQuestion ⟨"q1", 0, 0⟩ (by norm_num [exQuestion])
      (by norm_num [exQuestion])).1 ⟨"4", true⟩ (by simp [exQuestion]) rfl
    have h0 := h.2.2.1 rfl
    rw [h0]
    norm_num [exQuestion]
  · have h := (scoreResponse_spec exQuestion ⟨"q1", 0, 25⟩ (by norm_num [exQuestion])
      (by norm_num [exQuestion])).1 ⟨"4", true⟩ (by simp [exQuestion]) rfl
    have hl := h.2.2.2 (by norm_num [exQuestion])
    rw [hl.1]
    norm_num [exQuestion]

/-! ## C2: aggregate totals -/

lemma round2_mul_hundred (x : ℚ) : round2 x * 100 = ((jsRound (x * 100) : ℤ) : ℚ) := by
  rw [round2]
  field_simp

lemma scoreResponse_marks_int (q : Question) (r : ResponseInput) :
    ∃ k : ℤ, (scoreResponse q r).marksAwarded * 100 = (k : ℚ) := by
  simp only [scoreResponse]
  split
  · exact ⟨jsRound ((max ((q.marks : ℚ) * (1/10))
      ((q.marks : ℚ) * max 0 (((q.timeLimitSeconds : ℚ) - r.responseTimeSeconds) /
        (q.timeLimitSeconds : ℚ)))) * 100), round2_mul_hundred _⟩
  · exact ⟨0, by norm_num⟩

lemma sum_marks_int (l : List ScoredResponse)
    (h : ∀ s ∈ l, ∃ k : ℤ, s.marksAwarded * 100 = (k : ℚ)) :
    ∃ K : ℤ, (l.map ScoredResponse.marksAwarded).sum * 100 = (K : ℚ) := by
  induction l with
  | nil => exact ⟨0, by simp⟩
  | cons s rest ih =>
    obtain ⟨k, hk⟩ := h s (List.mem_cons_self s rest)
    obtain ⟨K, hK⟩ := ih (fun x hx => h x (List.mem_cons_of_mem s hx))
    refine ⟨k + K, ?_⟩
    rw [List.map_cons, List.sum_cons, add_mul, hk, hK]
    push_cast
    ring

lemma scoreResponses_ok_of_resolve (quiz : Quiz) (rs : List ResponseInput)
    (h : ∀ r ∈ rs, (findQuestion quiz r.questionId).isSome = true) :
    ∃ scored, scoreResponses quiz rs = .ok scored ∧
      ∀ s ∈ scored, ∃ q r, s = scoreResponse q r := by
  induction rs with
  | nil => exact ⟨[], rfl, by simp⟩
  | cons r rest ih =>
    have hr := h r (List.mem_cons_self r rest)
    cases hfind : findQuestion quiz r.questionId with
    | none => rw [hfind] at hr; simp at hr
    | some question =>
      obtain ⟨scored, hok, hmem⟩ := ih (fun x hx => h x (List.mem_cons_of_mem r hx))
      refine ⟨scoreResponse question r :: scored, ?_, ?_⟩
      · simp [scoreResponses, hfind, hok]
      · intro s hs
        rcases List.mem_cons.1 hs with rfl | hs2
        · exact ⟨question, r, rfl⟩
        · exact hmem s hs2

/-- **C2**: After scoring any attempt (including partial submissions,
which are not an error), `totalMarks` equals the 2-decimal rounding of
the sum of per-response `marksAwarded`; `maxMarks` equals the sum of
`marks` over all questions of the quiz, including unanswered ones; and
`percentage` equals `round2((totalMarks/maxMarks) * 100)` when
`maxMarks > 0` and `0` otherwise. -/
theorem submitQuizAttempt_totals (quiz : Quiz) (req : SubmitRequest) (now : ℕ)
    (hvis : quiz.isVisible = true)
    (hres : ∀ r ∈ req.responses, (findQuestion quiz r.questionId).isSome = true) :
    ∃ attempt, submitQuizAttempt quiz req now = .ok attempt ∧
      attempt.totalMarks = round2 ((attempt.responses.map ScoredResponse.marksAwarded).sum) ∧
      attempt.maxMarks = (((quiz.questions.map Question.marks).sum : ℕ) : ℚ) ∧
      attempt.percentage =
        (if 0 < attempt.maxMarks then round2 ((attempt.totalMarks / attempt.maxMarks) * 100)
         else 0) := by
  obtain ⟨scored, hok, hmem⟩ := scoreResponses_ok_of_resolve quiz req.responses hres
  have hsubmit : submitQuizAttempt quiz req now = .ok (mkAttempt quiz req now scored) := by
    rw [submitQuizAttempt, hvis, hok]
    simp
  obtain ⟨K, hK⟩ := sum_marks_int scored (fun s hs => by
    obtain ⟨q, r, rfl⟩ := hmem s hs
    exact scoreResponse_marks_int q r)
  have hround : round2 ((scored.map ScoredResponse.marksAwarded).sum) =
      (scored.map ScoredResponse.marksAwarded).sum := round2_eq_self _ K hK
  refine ⟨mkAttempt quiz req now scored, hsubmit, rfl, rfl, ?_⟩
  simp only [mkAttempt]
  by_cases hp : 0 < (((quiz.questions.map Question.marks).sum : ℕ) : ℚ)
  · rw [if_pos hp, if_pos hp, hround, round2]
    congr 1
    congr 1
    ring_nf
  · rw [if_neg hp, if_neg hp]

/-- Witness for C2: a partial submission (one response to the
two-question `exQuiz`) is accepted, and the hypotheses of
`submitQuizAttempt_totals` hold there. -/
theorem submitQuizAttempt_totals_witness :
    exQuiz.isVisible = true ∧
    (∀ r ∈ ([⟨"q1", 0, 10⟩] : List ResponseInput),
      (findQuestion exQuiz r.questionId).isSome = true) ∧
    (∃ attempt,
      submitQuizAttempt exQuiz ⟨"Pat", [⟨"q1", 0, 10⟩]⟩ 0 = .ok attempt ∧
      attempt.totalMarks = round2 ((attempt.responses.map ScoredResponse.marksAwarded).sum) ∧
      attempt.maxMarks = (((exQuiz.questions.map Question.marks).sum : ℕ) : ℚ) ∧
      attempt.percentage =
        (if 0 < attempt.maxMarks then round2 ((attempt.totalMarks / attempt.maxMarks) * 100)
         else 0)) :=
  ⟨rfl, by simp [findQuestion, exQuiz, exQuestion],
    submitQuizAttempt_totals exQuiz ⟨"Pat", [⟨"q1", 0, 10⟩]⟩ 0 rfl
      (by simp [findQuestion, exQuiz, exQuestion])⟩

/-! ## C3: unknown question id aborts the attempt -/

lemma scoreResponses_error_of_unknown (quiz : Quiz) (rs : List ResponseInput)
    (h : ∃ r ∈ rs, findQuestion quiz r.questionId = none) :
    ∃ badId, badId ∈ rs.map ResponseInput.questionId ∧ findQuestion quiz badId = none ∧
      scoreResponses quiz rs = .error (.questionNotFound badId) := by
  induction rs with
  | nil => simp at h
  | cons r rest ih =>
    cases hfind : findQuestion quiz r.questionId with
    | none => exact ⟨r.questionId, by simp, hfind, by simp [scoreResponses, hfind]⟩
    | some question =>
      have hrest : ∃ x ∈ rest, findQuestion quiz x.questionId = none := by
        rcases h with ⟨x, hx, hxn⟩
        rcases List.mem_cons.1 hx with rfl | hx2
        · rw [hfind] at hxn; cases hxn
        · exact ⟨x, hx2, hxn⟩
      obtain ⟨badId, hmem, hnone, herr⟩ := ih hrest
      refine ⟨badId, by simp [List.mem_cons.1, hmem], hnone, ?_⟩
      simp [scoreResponses, hfind, herr]

/-- **C3**: If any submitted response carries a `questionId` that matches
no question of the quiz, `submitQuizAttempt` fails with an error
identifying such an id, and no `QuizAttempt` record is created: the
store-level operation returns an error and never an updated attempt
store (all-or-nothing, no partially-scored attempt persisted). -/
theorem submitQuizAttempt_unknown_question (quiz : Quiz) (req : SubmitRequest) (now : ℕ)
    (hvis : quiz.isVisible = true)
    (hbad : ∃ r ∈ req.responses, findQuestion quiz r.questionId = none) :
    ∃ badId, badId ∈ req.responses.map ResponseInput.questionId ∧
      findQuestion quiz badId = none ∧
      submitQuizAttempt quiz req now = .error (.questionNotFound badId) ∧
      ∀ (quizzes : List Quiz) (quizId : String) (attempts : List QuizAttempt),
        findQuizById quizzes quizId = some quiz →
        submitQuizAttemptStore quizzes quizId req now attempts =
          .error (.questionNotFound badId) := by
  obtain ⟨badId, hmem, hnone, herr⟩ := scoreResponses_error_of_unknown quiz req.responses hbad
  have hsub : submitQuizAttempt quiz req now = .error (.questionNotFound badId) := by
    rw [submitQuizAttempt, hvis, herr]
    simp
  refine ⟨badId, hmem, hnone, hsub, ?_⟩
  intro quizzes quizId attempts hfound
  simp [submitQuizAttemptStore, hfound, hsub]

/-- Witness for C3: a response naming the unknown question id `"zz"`
against `exQuiz` makes the hypotheses of
`submitQuizAttempt_unknown_question` hold. -/
theorem submitQuizAttempt_unknown_question_witness :
    exQuiz.isVisible = true ∧
    (∃ r ∈ ([⟨"zz", 0, 1⟩] : List ResponseInput), findQuestion exQuiz r.questionId = none) ∧
    (∃ badId, badId ∈ ([⟨"zz", 0, 1⟩] : List ResponseInput).map ResponseInput.questionId ∧
      findQuestion exQuiz badId = none ∧
      submitQuizAttempt exQuiz ⟨"Pat", [⟨"zz", 0, 1⟩]⟩ 0 = .error (.questionNotFound badId) ∧
      ∀ (quizzes : List Quiz) (quizId : String) (attempts : List QuizAttempt),
        findQuizById quizzes quizId = some exQuiz →
        submitQuizAttemptStore quizzes quizId ⟨"Pat", [⟨"zz", 0, 1⟩]⟩ 0 attempts =
          .error (.questionNotFound badId)) :=
  ⟨rfl, by simp [findQuestion, exQuiz, exQuestion, exQuestion2],
    submitQuizAttempt_unknown_question exQuiz ⟨"Pat", [⟨"zz", 0, 1⟩]⟩ 0 rfl
      (by simp [findQuestion, exQuiz, exQuestion, exQuestion2])⟩

/-! ## C10: hidden quizzes accept no attempts -/

/-- **C10**: For every quiz whose `isVisible` flag is false,
`submitQuizAttempt` fails with the `'This quiz is not available'` error
before any scoring occurs, for every request body, and no `QuizAttempt`
record is created — even though the quiz exists in the store. -/
theorem submitQuizAttempt_hidden (quizzes : List Quiz) (quizId : String) (quiz : Quiz)
    (req : SubmitRequest) (now : ℕ)
    (hfound : findQuizById quizzes quizId = some quiz)
    (hhidden : quiz.isVisible = false) :
    submitQuizAttempt quiz req now = .error .quizNotAvailable ∧
    ∀ attempts, submitQuizAttemptStore quizzes quizId req now attempts =
      .error .quizNotAvailable := by
  have hsub : submitQuizAttempt quiz req now = .error .quizNotAvailable := by
    rw [submitQuizAttempt, hhidden]
    simp
  refine ⟨hsub, fun attempts => ?_⟩
  simp [submitQuizAttemptStore, hfound, hsub]

/-- Witness for C10 on the concrete hidden quiz. -/
theorem submitQuizAttempt_hidden_witness :
    findQuizById [exHiddenQuiz] "z2" = some exHiddenQuiz ∧
    exHiddenQuiz.isVisible = false ∧
    (submitQuizAttempt exHiddenQuiz ⟨"Pat", [⟨"q1", 0, 0⟩]⟩ 0 = .error .quizNotAvailable ∧
      ∀ attempts, submitQuizAttemptStore [exHiddenQuiz] "z2" ⟨"Pat", [⟨"q1", 0, 0⟩]⟩ 0 attempts =
        .error .quizNotAvailable) :=
  ⟨by simp [findQuizById, exHiddenQuiz], rfl,
    submitQuizAttempt_hidden [exHiddenQuiz] "z2" exHiddenQuiz ⟨"Pat", [⟨"q1", 0, 0⟩]⟩ 0
      (by simp [findQuizById, exHiddenQuiz]) rfl⟩

/-! ## C4: team creation -/

lemma createTeam_ok (directory : List Student) (teams : List Team)
    (newId name leaderId : String) (memberIds : List String) (leader : Student)
    (hleader : findStudentById directory leaderId = some leader)
    (hname : teams.any (fun t => t.name = name) = false) :
    createTeam directory teams newId name leaderId memberIds =
      .ok (mkTeam newId name leaderId leader
        (memberIds.filterMap (resolveInvitee directory))) := by
  rw [createTeam, hleader]
  simp [hname]

lemma resolveInvitee_isSome (directory : List Student) (memberId : String) :
    (resolveInvitee directory memberId).isSome = (findStudentById directory memberId).isSome := by
  cases h : findStudentById directory memberId <;> simp [resolveInvitee, h]

/-- **C4 — counterexample**: a team created with one invitee (`"ghost"`)
that does not resolve in the directory comes out with status `'active'`,
not `'pending'`, falsifying "a team created with ≥1 invitee has status
'pending'". -/
theorem createTeam_unresolved_invitee_cex :
    ((createTeam exDirectory [] "T" "Alpha" "ldr" ["ghost"]).map Team.status =
      .ok .active) ∧
    ¬((createTeam exDirectory [] "T" "Alpha" "ldr" ["ghost"]).map Team.status =
      .ok .pending) := by
  have hval : (createTeam exDirectory [] "T" "Alpha" "ldr" ["ghost"]).map Team.status =
      .ok .active := rfl
  refine ⟨hval, fun h => ?_⟩
  rw [hval] at h
  exact absurd (Except.ok.inj h) (by decide)

/-- **C4 — amended**: `createTeam` silently drops every invitee id that
does not resolve in the student directory (the operation succeeds and the
member list is exactly the resolved invitees), and the created team's
initial status is `'active'` exactly when the resolved member list is
empty and `'pending'` otherwise; in particular, a team created with at
least one invitee that resolves in the directory has status `'pending'`. -/
theorem createTeam_spec (directory : List Student) (teams : List Team)
    (newId name leaderId : String) (memberIds : List String) (leader : Student)
    (hleader : findStudentById directory leaderId = some leader)
    (hname : teams.any (fun t => t.name = name) = false) :
    ∃ team, createTeam directory teams newId name leaderId memberIds = .ok team ∧
      team.members = memberIds.filterMap (resolveInvitee directory) ∧
      team.status = (if team.members.length > 0 then TeamStatus.pending else TeamStatus.active) ∧
      ((∃ mid ∈ memberIds, (findStudentById directory mid).isSome = true) →
        team.status = .pending) := by
  refine ⟨mkTeam newId name leaderId leader (memberIds.filterMap (resolveInvitee directory)),
    createTeam_ok directory teams newId name leaderId memberIds leader hleader hname,
    rfl, rfl, ?_⟩
  rintro ⟨mid, hmid, hsome⟩
  have hres : (resolveInvitee directory mid).isSome = true := by
    rw [resolveInvitee_isSome]
    exact hsome
  obtain ⟨member, hmember⟩ := Option.isSome_iff_exists.1 hres
  have hmem : member ∈ memberIds.filterMap (resolveInvitee directory) :=
    List.mem_filterMap.2 ⟨mid, hmid, hmember⟩
  have hlen : 0 < (memberIds.filterMap (resolveInvitee directory)).length :=
    List.length_pos.2 (List.ne_nil_of_mem hmem)
  show (if (memberIds.filterMap (resolveInvitee directory)).length > 0
    then TeamStatus.pending else TeamStatus.active) = TeamStatus.pending
  rw [if_pos hlen]

/-- Witness for C4 (amended): creating a team with one unresolvable and
one resolvable invitee succeeds and yields status `'pending'`. -/
theorem createTeam_spec_witness :
    (createTeam exDirectory [] "T" "Alpha" "ldr" ["ghost", "stu"]).map Team.status =
      .ok .pending := by
  obtain ⟨team, hok, hmem, hstat, hpend⟩ :=
    createTeam_spec exDirectory [] "T" "Alpha" "ldr" ["ghost", "stu"] exLeader
      (by decide) (by decide)
  rw [hok, Except.map]
  have := hpend ⟨"stu", by decide, by decide⟩
  rw [this]

/-! ## C5: responding to an invitation -/

lemma respondFirstMatch_mem (sid : String) (st : MemberStatus) (now : ℕ)
    (members : List TeamMember)
    (h : members.any (fun m => m.studentId = sid) = true) :
    ∃ m ∈ respondFirstMatch sid st now members, m.studentId = sid ∧ m.status = st ∧
      (st = .approved → m.joinedAt = some now) := by
  induction members with
  | nil => simp at h
  | cons m rest ih =>
    by_cases hm : m.studentId = sid
    · refine ⟨{ m with
          status := st
          joinedAt := if st = .approved then some now else m.joinedAt }, ?_, hm, rfl, ?_⟩
      · rw [respondFirstMatch, if_pos hm]
        exact List.mem_cons_self _ _
      · intro ha
        simp [ha]
    · have h2 : rest.any (fun m => m.studentId = sid) = true := by
        simp only [List.any_cons, Bool.or_eq_true, decide_eq_true_eq] at h
        rcases h with h | h
        · exact absurd h hm
        · exact h
      obtain ⟨m2, hmem, hprops⟩ := ih h2
      refine ⟨m2, ?_, hprops⟩
      rw [respondFirstMatch, if_neg hm]
      exact List.mem_cons_of_mem _ hmem

lemma respondToInvitation_ok (teams : List Team) (teamId studentId decision : String)
    (now : ℕ) (team : Team)
    (hdec : decision = "approved" ∨ decision = "rejected")
    (hfind : findTeamById teams teamId = some team)
    (hany : team.members.any (fun m => m.studentId = studentId) = true) :
    respondToInvitation teams teamId studentId decision now =
      .ok (respondUpdate team studentId
        (if decision = "approved" then .approved else .rejected) now) := by
  rw [respondToInvitation, if_pos hdec, hfind]
  simp [hany]

/-- **C5**: `respondToInvitation(teamId, studentId, decision)` fails with
`Team not found` when the team is missing and `You are not invited` when
`studentId` has no member entry in the team; otherwise it sets that
member's status to the decision, sets `joinedAt` to now when the decision
is `approved`, and transitions the team to `'active'` exactly when
afterwards every member's status is non-pending and every member's status
is `'approved'` (otherwise the status is left as it was, so a single
rejection leaves a pending team `'pending'`). -/
theorem respondToInvitation_spec (teams : List Team) (teamId studentId decision : String)
    (now : ℕ) (hdec : decision = "approved" ∨ decision = "rejected") :
    (findTeamById teams teamId = none →
      respondToInvitation teams teamId studentId decision now = .error .teamNotFound) ∧
    ∀ team, findTeamById teams teamId = some team →
      (team.members.any (fun m => m.studentId = studentId) = false →
        respondToInvitation teams teamId studentId decision now = .error .notInvited) ∧
      (team.members.any (fun m => m.studentId = studentId) = true →
        ∃ updated, respondToInvitation teams teamId studentId decision now = .ok updated ∧
          updated.members = respondFirstMatch studentId
            (if decision = "approved" then .approved else .rejected) now team.members ∧
          (∃ m ∈ updated.members, m.studentId = studentId ∧
            m.status = (if decision = "approved" then .approved else .rejected) ∧
            (decision = "approved" → m.joinedAt = some now)) ∧
          updated.status =
            (if updated.members.all (fun m => !(m.status = MemberStatus.pending)) &&
                updated.members.all (fun m => m.status = MemberStatus.approved)
             then TeamStatus.active else team.status) ∧
          (decision = "rejected" → team.status = .pending →
            updated.status = .pending)) := by
  constructor
  · intro hnone
    rw [respondToInvitation, if_pos hdec, hnone]
  · intro team hfind
    constructor
    · intro hany
      rw [respondToInvitation, if_pos hdec, hfind]
      simp [hany]
    · intro hany
      refine ⟨respondUpdate team studentId
          (if decision = "approved" then .approved else .rejected) now,
        respondToInvitation_ok teams teamId studentId decision now team hdec hfind hany,
        rfl, ?_, rfl, ?_⟩
      · obtain ⟨m, hmem, hsid, hst, hjoin⟩ := respondFirstMatch_mem studentId
          (if decision = "approved" then .approved else .rejected) now team.members hany
        refine ⟨m, hmem, hsid, hst, fun happ => hjoin ?_⟩
        rw [if_pos happ]
      · intro hrej hpend
        have hne : ¬(decision = "approved") := by
          rw [hrej]
          decide
        obtain ⟨m, hmem, hsid, hst, hjoin⟩ := respondFirstMatch_mem studentId
          (if decision = "approved" then .approved else .rejected) now team.members hany
        rw [if_neg hne] at hst
        have happr : (respondFirstMatch studentId
            (if decision = "approved" then .approved else .rejected) now team.members).all
            (fun m => m.status = MemberStatus.approved) = false := by
          rcases hall : (respondFirstMatch studentId
            (if decision = "approved" then .approved else .rejected) now team.members).all
            (fun m => m.status = MemberStatus.approved) with _ | _
          · rfl
          · have := List.all_eq_true.1 hall m hmem
            rw [hst] at this
            simp at this
        show (if _ && _ then TeamStatus.active else team.status) = TeamStatus.pending
        rw [happr, Bool.and_false, if_neg (by simp), hpend]

/-- Witness for C5: `exStudent` approving their invitation to the
one-invitee team `exTeamPending` drives the team `'active'`. -/
theorem respondToInvitation_spec_witness :
    (respondToInvitation [exTeamPending] "T" "stu" "approved" 5).map Team.status =
      .ok .active := by
  obtain ⟨-, h2⟩ := respondToInvitation_spec [exTeamPending] "T" "stu" "approved" 5
    (Or.inl rfl)
  obtain ⟨-, h3⟩ := h2 exTeamPending (by decide)
  obtain ⟨updated, hok, hmem, -, hstat, -⟩ := h3 (by decide)
  rw [hok, Except.map]
  rw [hmem] at hstat
  rw [hstat]
  exact congrArg Except.ok (by decide)

/-! ## C6: is `'disbanded'` terminal? -/

/-- **C6 — counterexample**: a reachable disbanded team can leave the
`'disbanded'` state.  Create a team with one invitee (status `'pending'`),
let the leader disband it (status `'disbanded'`), then let the invitee
approve: `respondToInvitation` recomputes `allResponded && allApproved`
without checking the current status and sets the team `'active'`. -/
theorem disbanded_escape_cex :
    ((createTeam exDirectory [] "T" "Alpha" "ldr" ["stu"]).bind (fun t1 =>
      (disbandTeam [t1] "T" "ldr").map Team.status)) = .ok .disbanded ∧
    ((createTeam exDirectory [] "T" "Alpha" "ldr" ["stu"]).bind (fun t1 =>
      (disbandTeam [t1] "T" "ldr").bind (fun t2 =>
        (respondToInvitation [t2] "T" "stu" "approved" 0).map Team.status))) =
      .ok .active := by
  exact ⟨rfl, rfl⟩

/-- **C6 — amended**: for every reachable team whose status is
`'disbanded'`, no subsequent `leaveTeam`, `removeMember` or `disbandTeam`
ever changes its status; `respondToInvitation`, however, is not guarded
by the team status: it either leaves the status `'disbanded'` or — when
the response makes every member `'approved'` — sets it to `'active'`. -/
theorem disbanded_transitions (teams : List Team) (teamId : String) (team : Team)
    (hfind : findTeamById teams teamId = some team)
    (hdis : team.status = .disbanded) :
    (∀ sid t2, leaveTeam teams teamId sid = .ok t2 → t2.status = .disbanded) ∧
    (∀ rid mid t2, removeMember teams teamId rid mid = .ok t2 → t2.status = .disbanded) ∧
    (∀ rid t2, disbandTeam teams teamId rid = .ok t2 → t2.status = .disbanded) ∧
    (∀ sid dec n t2, respondToInvitation teams teamId sid dec n = .ok t2 →
      t2.status = .disbanded ∨
      (t2.status = .active ∧
        t2.members.all (fun m => m.status = .approved) = true)) := by
  refine ⟨?_, ?_, ?_, ?_⟩
  · intro sid t2 h
    simp only [leaveTeam, hfind] at h
    by_cases hl : team.leaderId = sid
    · rw [if_pos hl] at h
      cases h
    · rw [if_neg hl] at h
      rw [← Except.ok.inj h]
      exact hdis
  · intro rid mid t2 h
    simp only [removeMember, hfind] at h
    by_cases hl : team.leaderId = rid
    · rw [if_neg (by simp [hl])] at h
      rw [← Except.ok.inj h]
      exact hdis
    · rw [if_pos (by simp [hl])] at h
      cases h
  · intro rid t2 h
    simp only [disbandTeam, hfind] at h
    by_cases hl : team.leaderId = rid
    · rw [if_neg (by simp [hl])] at h
      rw [← Except.ok.inj h]
    · rw [if_pos (by simp [hl])] at h
      cases h
  · intro sid dec n t2 h
    by_cases hdec : dec = "approved" ∨ dec = "rejected"
    · by_cases hany : team.members.any (fun m => m.studentId = sid) = true
      · rw [respondToInvitation_ok teams teamId sid dec n team hdec hfind hany] at h
        rw [← Except.ok.inj h]
        by_cases hc : ((respondFirstMatch sid
              (if dec = "approved" then .approved else .rejected) n team.members).all
              (fun m => !(m.status = MemberStatus.pending)) &&
            (respondFirstMatch sid
              (if dec = "approved" then .approved else .rejected) n team.members).all
              (fun m => m.status = MemberStatus.approved)) = true
        · right
          constructor
          · simp only [respondUpdate]
            rw [if_pos hc]
          · have hc2 := hc
            rw [Bool.and_eq_true] at hc2
            simpa only [respondUpdate] using hc2.2
        · left
          simp only [respondUpdate]
          rw [if_neg hc]
          exact hdis
      · have hany2 : team.members.any (fun m => m.studentId = sid) = false := by
          rwa [← Bool.not_eq_true]
        rw [respondToInvitation, if_pos hdec, hfind] at h
        simp [hany2] at h
    · rw [respondToInvitation, if_neg hdec] at h
      cases h

/-- Witness for C6 (amended) on the concrete disbanded team. -/
theorem disbanded_transitions_witness :
    findTeamById [exTeamDisbanded] "T" = some exTeamDisbanded ∧
    exTeamDisbanded.status = .disbanded ∧
    (∀ t2, leaveTeam [exTeamDisbanded] "T" "stu" = .ok t2 → t2.status = .disbanded) :=
  ⟨by decide, rfl,
    (disbanded_transitions [exTeamDisbanded] "T" exTeamDisbanded (by decide) rfl).1 "stu"⟩

/-! ## C7: the leader and the member list -/

/-- **C7 — counterexample**: `createTeam` does not exclude the leader
from the invitee list, so a leader who lists their own id among
`memberIds` becomes a `CompetitionTeamMember` entry; and `removeMember`
targeting the leader's id is not rejected (it succeeds as a filter). -/
theorem leader_as_member_cex :
    ((createTeam exDirectory [] "T" "Alpha" "ldr" ["ldr"]).map
      (fun t => t.members.map TeamMember.studentId)) = .ok ["ldr"] ∧
    ((createTeam exDirectory [] "T" "Alpha" "ldr" ["ldr"]).bind (fun t =>
      removeMember [t] "T" "ldr" "ldr")).isOk = true := by
  exact ⟨rfl, rfl⟩

/-- **C7 — amended**: `leaveTeam` invoked by the leader fails with
`'Team leader cannot leave'`; but the leader can be represented as a
member entry — `createTeam` resolves a leader id listed among the
invitees into a member entry like any other — and `removeMember` does not
reject removing the leader: with the leader as requester and target it
succeeds, merely filtering the member list. -/
theorem leader_membership_spec :
    (∀ (teams : List Team) (teamId sid : String) (team : Team),
      findTeamById teams teamId = some team → team.leaderId = sid →
      leaveTeam teams teamId sid = .error .leaderCannotLeave) ∧
    (∀ (directory : List Student) (teams : List Team)
      (newId name leaderId : String) (memberIds : List String) (leader : Student),
      findStudentById directory leaderId = some leader →
      teams.any (fun t => t.name = name) = false →
      leaderId ∈ memberIds →
      ∃ team, createTeam directory teams newId name leaderId memberIds = .ok team ∧
        ∃ m ∈ team.members, m.studentId = leaderId) ∧
    (∀ (teams : List Team) (teamId : String) (team : Team),
      findTeamById teams teamId = some team →
      ∃ t2, removeMember teams teamId team.leaderId team.leaderId = .ok t2 ∧
        t2.members = team.members.filter (fun m => !(m.studentId = team.leaderId))) := by
  refine ⟨?_, ?_, ?_⟩
  · intro teams teamId sid team hfind hl
    rw [leaveTeam, hfind]
    simp [hl]
  · intro directory teams newId name leaderId memberIds leader hleader hname hmem
    refine ⟨mkTeam newId name leaderId leader (memberIds.filterMap (resolveInvitee directory)),
      createTeam_ok directory teams newId name leaderId memberIds leader hleader hname, ?_⟩
    have hid : leader.id = leaderId := by
      have := List.find?_some hleader
      exact of_decide_eq_true this
    refine ⟨{ studentId := leader.id
              name := leader.name
              email := leader.email
              registrationNo := leader.registrationNo
              status := .pending
              joinedAt := none }, ?_, hid⟩
    show _ ∈ (mkTeam newId name leaderId leader
      (memberIds.filterMap (resolveInvitee directory))).members
    refine List.mem_filterMap.2 ⟨leaderId, hmem, ?_⟩
    rw [resolveInvitee, hleader]
  · intro teams teamId team hfind
    refine ⟨{ team with
        members := team.members.filter (fun m => !(m.studentId = team.leaderId)) }, ?_, rfl⟩
    rw [removeMember, hfind]
    simp

/-- Witness for C7 (amended): all three facts at the concrete directory
and team. -/
theorem leader_membership_spec_witness :
    leaveTeam [exTeamPending] "T" "ldr" = .error .leaderCannotLeave ∧
    (∃ team, createTeam exDirectory [] "U" "Beta" "ldr" ["ldr"] = .ok team ∧
      ∃ m ∈ team.members, m.studentId = "ldr") ∧
    (∃ t2, removeMember [exTeamPending] "T" exTeamPending.leaderId exTeamPending.leaderId =
        .ok t2 ∧
      t2.members = exTeamPending.members.filter
        (fun m => !(m.studentId = exTeamPending.leaderId))) :=
  ⟨leader_membership_spec.1 [exTeamPending] "T" "ldr" exTeamPending (by decide) rfl,
   leader_membership_spec.2.1 exDirectory [] "U" "Beta" "ldr" ["ldr"] exLeader
     (by decide) (by decide) (by decide),
   leader_membership_spec.2.2 [exTeamPending] "T" exTeamPending (by decide)⟩

/-! ## C9: leave/remove are pure member-list filters -/

lemma filter_out_length_lt (l : List TeamMember) (sid : String)
    (h : ∃ m ∈ l, m.studentId = sid) :
    (l.filter (fun m => !(m.studentId = sid))).length < l.length := by
  induction l with
  | nil => simp at h
  | cons m rest ih =>
    by_cases hm : m.studentId = sid
    · have hle : (rest.filter (fun m => !(m.studentId = sid))).length ≤ rest.length :=
        List.length_filter_le _ _
      simp [List.filter_cons, hm]
      omega
    · rcases h with ⟨x, hx, hxs⟩
      rcases List.mem_cons.1 hx with rfl | hx2
      · exact absurd hxs hm
      · have := ih ⟨x, hx2, hxs⟩
        simp [List.filter_cons, hm]
        omega

/-- **C9**: `leaveTeam` (for a non-leader) and `removeMember` (requested
by the leader) only remove the matching member entries outright: the
member list becomes the filter of the old one (shrinking whenever a
matching entry exists), and every other field of the team — in particular
its status — is left unchanged; no re-evaluation of `'active'` status is
triggered. -/
theorem leave_remove_frame (teams : List Team) (teamId : String) (team : Team)
    (hfind : findTeamById teams teamId = some team) :
    (∀ sid, ¬(team.leaderId = sid) →
      ∃ t2, leaveTeam teams teamId sid = .ok t2 ∧
        t2.members = team.members.filter (fun m => !(m.studentId = sid)) ∧
        t2.status = team.status ∧ t2.id = team.id ∧ t2.name = team.name ∧
        t2.leaderId = team.leaderId ∧ t2.leaderName = team.leaderName ∧
        t2.leaderEmail = team.leaderEmail ∧
        ((∃ m ∈ team.members, m.studentId = sid) →
          t2.members.length < team.members.length)) ∧
    (∀ mid,
      ∃ t2, removeMember teams teamId team.leaderId mid = .ok t2 ∧
        t2.members = team.members.filter (fun m => !(m.studentId = mid)) ∧
        t2.status = team.status ∧ t2.id = team.id ∧ t2.name = team.name ∧
        t2.leaderId = team.leaderId ∧ t2.leaderName = team.leaderName ∧
        t2.leaderEmail = team.leaderEmail ∧
        ((∃ m ∈ team.members, m.studentId = mid) →
          t2.members.length < team.members.length)) := by
  constructor
  · intro sid hl
    refine ⟨{ team with members := team.members.filter (fun m => !(m.studentId = sid)) },
      ?_, rfl, rfl, rfl, rfl, rfl, rfl, rfl, fun hex => filter_out_length_lt _ _ hex⟩
    rw [leaveTeam, hfind]
    simp [hl]
  · intro mid
    refine ⟨{ team with members := team.members.filter (fun m => !(m.studentId = mid)) },
      ?_, rfl, rfl, rfl, rfl, rfl, rfl, rfl, fun hex => filter_out_length_lt _ _ hex⟩
    rw [removeMember, hfind]
    simp

/-- Witness for C9: `exStudent` leaving `exTeamPending` shrinks the
member list to empty and leaves the status `'pending'`. -/
theorem leave_remove_frame_witness :
    ∃ t2, leaveTeam [exTeamPending] "T" "stu" = .ok t2 ∧
      t2.members = exTeamPending.members.filter (fun m => !(m.studentId = "stu")) ∧
      t2.status = exTeamPending.status ∧
      t2.members.length < exTeamPending.members.length := by
  obtain ⟨t2, hok, hmem, hstat, -, -, -, -, -, hlen⟩ :=
    (leave_remove_frame [exTeamPending] "T" exTeamPending (by decide)).1 "stu" (by decide)
  exact ⟨t2, hok, hmem, hstat, hlen ⟨exPendingMember, by decide, by decide⟩⟩

/-! ## C8: where correctness flags can leak -/

lemma stripQuiz_isVisible (q1 q2 : Quiz) (h : stripQuiz q1 = stripQuiz q2) :
    q1.isVisible = q2.isVisible := by
  have := congrArg PublicQuiz.isVisible h
  simpa [stripQuiz] using this

lemma stripQuiz_title (q1 q2 : Quiz) (h : stripQuiz q1 = stripQuiz q2) :
    q1.title = q2.title := by
  have := congrArg PublicQuiz.title h
  simpa [stripQuiz] using this

lemma stripQuiz_description (q1 q2 : Quiz) (h : stripQuiz q1 = stripQuiz q2) :
    q1.description = q2.description := by
  have := congrArg PublicQuiz.description h
  simpa [stripQuiz] using this

/-- Filtering by any predicate that only reads flag-free content
commutes with the projection of flag-only-differing stores. -/
lemma filter_map_strip_of_key (p : Quiz → Bool)
    (hp : ∀ a b, stripQuiz a = stripQuiz b → p a = p b)
    (qs1 qs2 : List Quiz) (h : qs1.map stripQuiz = qs2.map stripQuiz) :
    (qs1.filter p).map stripQuiz = (qs2.filter p).map stripQuiz := by
  induction qs1 generalizing qs2 with
  | nil =>
    cases qs2 with
    | nil => rfl
    | cons q2 rest2 => simp at h
  | cons q1 rest1 ih =>
    cases qs2 with
    | nil => simp at h
    | cons q2 rest2 =>
      simp only [List.map_cons, List.cons.injEq] at h
      obtain ⟨hq, hrest⟩ := h
      have hkey := hp q1 q2 hq
      by_cases hv : p q1 = true
      · have hv2 : p q2 = true := by rw [← hkey]; exact hv
        simp only [List.filter_cons, hv, hv2, if_true, List.map_cons]
        rw [hq, ih rest2 hrest]
      · have hv2 : ¬(p q2 = true) := by rw [← hkey]; exact hv
        simp only [List.filter_cons, hv, hv2, if_false]
        exact ih rest2 hrest

lemma listSelection_map_strip (qs1 qs2 : List Quiz) (includeHidden : Bool)
    (search : Option (String → String → Bool))
    (h : qs1.map stripQuiz = qs2.map stripQuiz) :
    (listSelection qs1 includeHidden search).map stripQuiz =
      (listSelection qs2 includeHidden search).map stripQuiz := by
  have hvis : (if includeHidden then qs1 else qs1.filter (fun q => q.isVisible)).map stripQuiz =
      (if includeHidden then qs2 else qs2.filter (fun q => q.isVisible)).map stripQuiz := by
    cases includeHidden with
    | false =>
      simpa using filter_map_strip_of_key (fun q => q.isVisible)
        (fun a b hab => stripQuiz_isVisible a b hab) qs1 qs2 h
    | true => simpa using h
  cases search with
  | none => simpa [listSelection] using hvis
  | some p =>
    simp only [listSelection]
    exact filter_map_strip_of_key (fun q => p q.title q.description)
      (fun a b hab => by
        show p a.title a.description = p b.title b.description
        rw [stripQuiz_title a b hab, stripQuiz_description a b hab]) _ _ hvis

/-- **C8 — counterexample**: `exQuiz` and `exQuizFlipped` differ only in
their answers' `isCorrect` flags (their strippings agree), yet the
get-by-id endpoint returns different responses for them, because
`getQuizById` applies no projection.  And the listing leaks too, through
its unvalidated sort: the stores `[exQuizAllCorrect, exQuizB]` and
`[exQuizOneCorrect, exQuizB]` also differ only in flags, but a
`?sort=questions.answers.isCorrect&limit=1` request orders the stored
documents by the flag-derived key and returns different first pages. -/
theorem getQuizById_leaks_flags_cex :
    (stripQuiz exQuiz = stripQuiz exQuizFlipped ∧
      ¬(getQuizByIdView [exQuiz] "z1" = getQuizByIdView [exQuizFlipped] "z1")) ∧
    ([exQuizAllCorrect, exQuizB].map stripQuiz = [exQuizOneCorrect, exQuizB].map stripQuiz ∧
      ¬(getAllQuizzesView [exQuizAllCorrect, exQuizB] false none flagSort 0 1 =
        getAllQuizzesView [exQuizOneCorrect, exQuizB] false none flagSort 0 1)) := by
  refine ⟨⟨by decide, fun h => ?_⟩, ⟨by decide, by decide⟩⟩
  have h1 : getQuizByIdView [exQuiz] "z1" = .ok exQuiz := rfl
  have h2 : getQuizByIdView [exQuizFlipped] "z1" = .ok exQuizFlipped := rfl
  rw [h1, h2] at h
  exact absurd (Except.ok.inj h) (by decide)

/-- **C8 — amended**: the listing's per-document projection omits the
`isCorrect` flags, and two stored quiz lists differing only in their
flags produce identical listing responses whenever the user-controlled
sort stage respects the projection (its ordering of the stored documents
does not depend on the flags, as with the default `createdAt` sort and
any search term/visibility/pagination choice); a sort keyed on the flag
path itself distinguishes such stores, and `getQuizById` returns the
flags outright. -/
theorem listing_no_flag_leak (qs1 qs2 : List Quiz) (includeHidden : Bool)
    (search : Option (String → String → Bool))
    (sortStage1 sortStage2 : List Quiz → List Quiz) (skip limit : ℕ)
    (hsort : ∀ l1 l2, l1.map stripQuiz = l2.map stripQuiz →
      (sortStage1 l1).map stripQuiz = (sortStage2 l2).map stripQuiz)
    (h : qs1.map stripQuiz = qs2.map stripQuiz) :
    getAllQuizzesView qs1 includeHidden search sortStage1 skip limit =
      getAllQuizzesView qs2 includeHidden search sortStage2 skip limit := by
  have hsorted := hsort _ _ (listSelection_map_strip qs1 qs2 includeHidden search h)
  simp only [getAllQuizzesView, List.map_take, List.map_drop, hsorted]

/-- Witness for C8 (amended): with a flag-independent ordering of the
stored documents, the flag-flipped pair of quizzes is indistinguishable
through the listing view at the default window (page 1, limit 10). -/
theorem listing_no_flag_leak_witness :
    ([exQuiz].map stripQuiz = [exQuizFlipped].map stripQuiz) ∧
    getAllQuizzesView [exQuiz] false none id 0 10 =
      getAllQuizzesView [exQuizFlipped] false none id 0 10 :=
  ⟨by decide, listing_no_flag_leak [exQuiz] [exQuizFlipped] false none id id 0 10
    (fun l1 l2 hh => hh) (by decide)⟩

end ComES
